import Mathlib

/-!
Verification of the XDPoS v1 consensus engine
(consensus/XDPoS/engines/engine_v1/engine.go) against its
natural-language specification: a shallow embedding of the header
verification, leader rotation, difficulty and sealing logic, with
proofs of the specified properties.

Modelling conventions:
* machine integers are `Nat`/`Int`; Go's `uint64` wraparound is made
  explicit where it matters (`sub64`);
* Go's `%` on `int` is `Int.tmod` (truncated), Go's non-negative
  modulus coincides with `Int.emod`;
* byte strings are `List Nat` (one `Nat` per byte);
* external collaborators (keccak256, secp256k1 recovery, the chain
  reader, the snapshot walk, the optional hooks) are fields of an
  `Env` record that theorems quantify over; everything the engine
  itself computes is translated concretely from the source.
-/

deriving instance DecidableEq for Except

/-- 20-byte account identity (a list of byte values). -/
abbrev Address := List Nat

/-- 32-byte keccak digest (a list of byte values). -/
abbrev Hash := List Nat

/-- utils.ExtraVanity: fixed vanity prefix of header.Extra. -/
def extraVanity : Nat := 32

/-- utils.ExtraSeal: the 65-byte secp256k1 signature at the end of header.Extra. -/
def extraSeal : Nat := 65

/-- common.AddressLength. -/
def addressLength : Nat := 20

/-- utils.NonceAuthVote: 0xff..ff, vote to authorize a signer. -/
def nonceAuthVote : List Nat := List.replicate 8 0xff

/-- utils.NonceDropVote: 0x00..00, vote to drop a signer. -/
def nonceDropVote : List Nat := List.replicate 8 0

/-- The all-zero address (Go `common.Address{}`). -/
def zeroAddress : Address := List.replicate 20 0

/-- The all-zero hash (Go `common.Hash{}`). -/
def zeroHash : Hash := List.replicate 32 0

/-- common.LimitPenaltyEpoch (= 4). -/
def limitPenaltyEpoch : Nat := 4

/-- utils.UncleHash = types.CalcUncleHash(nil): keccak256(rlp([])). -/
def emptyUncleHash : Hash :=
  [0x1d, 0xcc, 0x4d, 0xe8, 0xde, 0xc7, 0x5d, 0x7a, 0xab, 0x85, 0xb5, 0x67,
   0xb6, 0xcc, 0xd4, 0x1a, 0xd3, 0x12, 0x45, 0x1b, 0x94, 0x8a, 0x74, 0x13,
   0xf0, 0xa1, 0x42, 0xfd, 0x40, 0xd4, 0x93, 0x47]

/-- Go `uint64` subtraction with wraparound (used for `number - limit`). -/
def sub64 (a b : Nat) : Nat := (a + (2 ^ 64 - b)) % 2 ^ 64

/-- Big-endian digits via structural recursion on a fuel bound
(`n / 256 < n` for positive `n`, so `n` itself is enough fuel). -/
def beBytesAux : Nat → Nat → List Nat
  | 0, _ => []
  | _, 0 => []
  | fuel + 1, n => beBytesAux fuel (n / 256) ++ [n % 256]

/-- Minimal big-endian byte representation of a natural number (empty for 0),
as used by RLP for integers and length prefixes. -/
def beBytes (n : Nat) : List Nat := beBytesAux n n

/-- RLP encoding of a byte string. -/
def rlpBytes (b : List Nat) : List Nat :=
  if b.length = 1 ∧ b.headD 0 < 0x80 then b
  else if b.length < 56 then (0x80 + b.length) :: b
  else
    let lb := beBytes b.length
    (0xb7 + lb.length) :: (lb ++ b)

/-- RLP encoding of a non-negative integer (big.Int / uint64). -/
def rlpNat (n : Nat) : List Nat := rlpBytes (beBytes n)

/-- RLP list wrapper around an already-encoded payload. -/
def rlpList (payload : List Nat) : List Nat :=
  if payload.length < 56 then (0xc0 + payload.length) :: payload
  else
    let lb := beBytes payload.length
    (0xf7 + lb.length) :: (lb ++ payload)

/-- types.Header, restricted to the fields the consensus core reads.
`difficulty` is `Int` (the engine compares `Int64` values); `number`,
`gasLimit`, `gasUsed` and `time` are the non-negative big.Int fields;
byte-string fields are byte lists.  The Go `Number == nil` case is not
representable: every modelled header carries a number. -/
structure Header where
  parentHash : Hash
  uncleHash : Hash
  coinbase : Address
  root : Hash
  txHash : Hash
  receiptHash : Hash
  bloom : List Nat
  difficulty : Int
  number : Nat
  gasLimit : Nat
  gasUsed : Nat
  time : Nat
  extra : List Nat
  mixDigest : Hash
  nonce : List Nat
  validators : List Nat
  validator : List Nat
  penalties : List Nat
deriving DecidableEq, Repr

/-- snapshot.go SnapshotV1: the authorized set at an anchor.  Go stores
`Signers` as a map (a set of addresses) and `Recents` as a map from
block number to signer; both are modelled as lists. -/
structure SnapshotV1 where
  number : Nat
  hash : Hash
  signers : List Address
  recents : List (Nat × Address)
deriving DecidableEq, Repr

/-- A block as far as Seal is concerned: its header and how many
transactions it carries. -/
structure Block where
  header : Header
  txCount : Nat
deriving DecidableEq, Repr

/-- The error values the engine can return (utils.Err*, consensus.Err*).
`nilPointer` marks paths where the Go code would dereference a nil
pointer (a panic, not an error return); `hook` stands for an error
bubbled up from an external hook. -/
inductive XErr where
  | unknownBlock
  | noValidatorSignature
  | futureBlock
  | invalidCheckpointBeneficiary
  | invalidVote
  | invalidCheckpointVote
  | missingVanity
  | missingSignature
  | extraSigners
  | invalidCheckpointSigners
  | invalidMixDigest
  | invalidUncleHash
  | unknownAncestor
  | invalidTimestamp
  | invalidCheckpointPenalties
  | unauthorized
  | invalidDifficulty
  | failValidatorSignature
  | failedDoubleValidation
  | waitTransactions
  | masternodesNotFound
  | ecrecoverFailed
  | blockZero
  | noCheckpointHeader
  | notCheckpointEpoch
  | contractFetch
  | cantGetValidator
  | nilPointer
  | hook (code : Nat)
deriving DecidableEq, Repr

/-- params.XDPoSConfig together with the `common` package globals the
engine consults (`IsTestnet`, `IgnoreSignerCheckBlock`,
`EpocBlockRandomize`) and the chain config fork predicate
`IsTIPSigning`. -/
structure Config where
  epoch : Nat
  gap : Nat
  period : Nat
  isTestnet : Bool
  isTIPSigning : Nat → Bool
  ignoreSignerCheckBlock : Nat
  epocBlockRandomize : Nat

/-- The engine's external collaborators: cryptographic primitives
(keccak256, secp256k1 public-key recovery), the ChainReader, the
snapshot store (`c.snapshot`, whose parent walk is outside the scope of
the claims), the fork-hash check (consensus/misc), the optional hooks,
the wallet signing function and the local signer/current time.
`getM1M2` stands for utils.ExtractValidatorsFromBytes + utils.GetM1M2
(m1→m2 assignment), which are not part of the source under
verification; per the spec the m1→m2 map is derived deterministically
from the checkpoint's masternode list and validator bytes. -/
structure Env where
  now : Nat
  signer : Address
  keccak : List Nat → List Nat
  cryptoEcrecover : Hash → List Nat → Option (List Nat)
  headerHash : Header → Hash
  signFn : Address → List Nat → Except XErr (List Nat)
  getHeader : Hash → Nat → Option Header
  getHeaderByNumber : Nat → Option Header
  snapshotAt : Nat → Hash → Except XErr SnapshotV1
  verifyForkHashes : Header → Option XErr
  hookPenalty : Option (Nat → Except XErr (List Address))
  hookPenaltyTIPSigning : Option (Header → List Address → Except XErr (List Address))
  hookVerifyMNs : Option (Header → List Address → Except XErr Unit)
  hookGetSignersFromContract : Hash → Except XErr (List Address)
  getM1M2 : List Address → List Nat → Header → Except XErr (Address → Address)
  penaltiesAt : Nat → Option (List Nat)

/-- The five values returned by YourTurn:
`(len(masternodes), preIndex, curIndex, yourTurn, err)`. -/
structure TurnResult where
  len : Nat
  preIndex : Int
  curIndex : Int
  ok : Bool
  err : Option XErr
deriving DecidableEq, Repr

/-- sigHash (engine.go): the RLP encoding of every header field except
the last 65 bytes of `extra` — the byte string fed to keccak256.
Fields appear in source order.  (For `extra` shorter than 65 bytes the
Go code panics; here `List.take` degrades to a shorter list.) -/
def sigHashInput (h : Header) : List Nat :=
  rlpList
    (rlpBytes h.parentHash ++
     rlpBytes h.uncleHash ++
     rlpBytes h.coinbase ++
     rlpBytes h.root ++
     rlpBytes h.txHash ++
     rlpBytes h.receiptHash ++
     rlpBytes h.bloom ++
     rlpNat h.difficulty.toNat ++
     rlpNat h.number ++
     rlpNat h.gasLimit ++
     rlpNat h.gasUsed ++
     rlpNat h.time ++
     rlpBytes (h.extra.take (h.extra.length - extraSeal)) ++
     rlpBytes h.mixDigest ++
     rlpBytes h.nonce)

/-- sigHash: keccak256 of the RLP-encoded truncated header. -/
def sigHash (env : Env) (h : Header) : Hash := env.keccak (sigHashInput h)

/-- Go `copy(dst, src)`: overwrite the first `min |src| |dst|` bytes of
`dst` with `src`, keeping `dst`'s length. -/
def copyBytes (dst src : List Nat) : List Nat :=
  src.take dst.length ++ dst.drop src.length

/-- ecrecover (engine.go): extract the creator address from the seal in
the last 65 bytes of `extra`.  The LRU signature cache is a pure
memoization and is not modelled. -/
def ecrecover (env : Env) (header : Header) : Except XErr Address :=
  if header.extra.length < extraSeal then .error .missingSignature
  else
    let signature := header.extra.drop (header.extra.length - extraSeal)
    match env.cryptoEcrecover (sigHash env header) signature with
    | none => .error .ecrecoverFailed
    | some pubkey => .ok (copyBytes zeroAddress ((env.keccak (pubkey.drop 1)).drop 12))

/-- RecoverValidator (engine.go): recover the co-validator address from
the 65-byte `header.Validator` signature over the same sigHash. -/
def RecoverValidator (env : Env) (header : Header) : Except XErr Address :=
  if header.validator.length ≠ extraSeal then .error .failValidatorSignature
  else
    match env.cryptoEcrecover (sigHash env header) header.validator with
    | none => .error .ecrecoverFailed
    | some pubkey => .ok (copyBytes zeroAddress ((env.keccak (pubkey.drop 1)).drop 12))

/-- whoIsCreator (engine.go): the parent's creator; block 0 is refused. -/
def whoIsCreator (env : Env) (header : Header) : Except XErr Address :=
  if header.number = 0 then .error .blockZero
  else ecrecover env header

/-- position (engine.go): index of the first occurrence of `x` in
`list`, or -1. -/
def position : List Address → Address → Int
  | [], _ => -1
  | y :: ys, x =>
    if y = x then 0
    else
      let p := position ys x
      if p = -1 then -1 else p + 1

/-- One 20-byte address copied out of `extra` at offset `off`
(Go `copy(masternodes[i][:], extra[off:])`: missing bytes stay zero). -/
def addressAt (extra : List Nat) (off : Nat) : Address :=
  copyBytes zeroAddress ((extra.drop off).take addressLength)

/-- GetMasternodesFromCheckpointHeader: the `(len(extra)-97)/20`
addresses packed between vanity and seal of a checkpoint header. -/
def extractMasternodes (h : Header) : List Address :=
  (List.range ((h.extra.length - extraVanity - extraSeal) / addressLength)).map
    (fun i => addressAt h.extra (extraVanity + i * addressLength))

/-- GetMasternodes (engine.go): masternodes of the epoch containing
`header` — from `header` itself at a checkpoint height, otherwise from
the checkpoint header at `n - n % epoch` (empty when that header is
missing, as in the Go nil branch). -/
def GetMasternodes (env : Env) (cfg : Config) (header : Header) : List Address :=
  let n := header.number
  let e := cfg.epoch
  if n % e = 0 then extractMasternodes header
  else
    match env.getHeaderByNumber (n - n % e) with
    | none => []
    | some h => extractMasternodes h

/-- The `preIndex` computation inside YourTurn: -1 for a genesis
parent, otherwise the position of the parent's recovered creator. -/
def preIndexOf (env : Env) (masternodes : List Address) (parent : Header) :
    Except XErr Int :=
  if parent.number = 0 then .ok (-1)
  else
    match whoIsCreator env parent with
    | .error e => .error e
    | .ok pre => .ok (position masternodes pre)

/-- YourTurn (engine.go): leader-schedule check for `signer` on top of
`parent`.  Returns `(len, preIndex, curIndex, ok, err)` exactly as the
source does on each path.  The snapshot is fetched (and its failure
propagated) although only its signature cache is used. -/
def YourTurn (env : Env) (cfg : Config) (parent : Header) (signer : Address) :
    TurnResult :=
  let masternodes := GetMasternodes env cfg parent
  match env.snapshotAt parent.number (env.headerHash parent) with
  | .error e => ⟨0, -1, -1, false, some e⟩
  | .ok _snap =>
    if masternodes.length = 0 then ⟨0, -1, -1, false, some .masternodesNotFound⟩
    else
      match preIndexOf env masternodes parent with
      | .error e => ⟨0, 0, 0, false, some e⟩
      | .ok preIndex =>
        let curIndex := position masternodes signer
        ⟨masternodes.length, preIndex, curIndex,
          (preIndex + 1).tmod masternodes.length == curIndex, none⟩

/-- Modelled from the spec: utils.Hop is not part of the source under
verification; the spec defines hop as the forward distance modulo the
set size — the number of rotation steps from the slot after `pre`
forward to `cur`. -/
def Hop (n : Nat) (pre cur : Int) : Int := (cur - (pre + 1)) % (n : Int)

/-- calcDifficulty (engine.go): `len - Hop(len, pre, cur)` on success,
`len + cur - pre` when YourTurn failed. -/
def calcDifficulty (env : Env) (cfg : Config) (parent : Header) (signer : Address) :
    Int :=
  let r := YourTurn env cfg parent signer
  match r.err with
  | some _ => (r.len : Int) + r.curIndex - r.preIndex
  | none => (r.len : Int) - Hop r.len r.preIndex r.curIndex

/-- The three masternode addresses hard-coded for the XDC testnet in
CheckMNTurn. -/
def testnetMasternodes : List Address :=
  [[0x3E, 0xA0, 0xA3, 0x55, 0x5F, 0x9B, 0x1D, 0xE9, 0x83, 0x57,
    0x2B, 0xFF, 0x64, 0x44, 0xAE, 0xB1, 0x89, 0x9E, 0xC5, 0x8C],
   [0x4F, 0x79, 0x00, 0x28, 0x2F, 0x3D, 0x37, 0x1D, 0x58, 0x5A,
    0xB1, 0x36, 0x12, 0x05, 0xB0, 0x94, 0x0A, 0xB1, 0x78, 0x9C],
   [0x94, 0x2A, 0x58, 0x85, 0xA8, 0x84, 0x4E, 0xE5, 0x58, 0x7C,
    0x8A, 0xC5, 0xE3, 0x71, 0xFC, 0x39, 0xFF, 0xE6, 0x18, 0x96]]

/-- CheckMNTurn (engine.go): like YourTurn but with the rule
`preIndex % len == curIndex` (Go's truncated `%`), a hard-coded
masternode list on testnet, and `false` on every error path. -/
def CheckMNTurn (env : Env) (cfg : Config) (parent : Header) (signer : Address) :
    Bool :=
  let masternodes0 := GetMasternodes env cfg parent
  let masternodes := if cfg.isTestnet then testnetMasternodes else masternodes0
  match env.snapshotAt parent.number (env.headerHash parent) with
  | .error _ => false
  | .ok _snap =>
    if masternodes.length = 0 then false
    else
      match preIndexOf env masternodes parent with
      | .error _ => false
      | .ok preIndex =>
        let curIndex := position masternodes signer
        preIndex.tmod masternodes.length == curIndex

/-- GetM1M2FromCheckpointHeader (engine.go): refuse non-checkpoint
heights, then derive the m1→m2 map from the checkpoint's masternodes
and validator bytes (the derivation itself is the `getM1M2` oracle,
see `Env`). -/
def GetM1M2FromCheckpointHeader (env : Env) (cfg : Config)
    (checkpointHeader currentHeader : Header) :
    Except XErr (Address → Address) :=
  if checkpointHeader.number % cfg.epocBlockRandomize ≠ 0 then .error .notCheckpointEpoch
  else env.getM1M2 (extractMasternodes checkpointHeader) checkpointHeader.validators
    currentHeader

/-- GetValidator (engine.go): the validator assigned to `creator` by the
m1→m2 map of the epoch's checkpoint header (zero address before the
first checkpoint; a Go map miss yields the zero value, which the
`getM1M2` oracle realizes as the map's default). -/
def GetValidator (env : Env) (cfg : Config) (creator : Address) (header : Header) :
    Except XErr Address :=
  let no := header.number
  let cpNo := if no % cfg.epoch ≠ 0 then no - no % cfg.epoch else no
  if cpNo = 0 then .ok zeroAddress
  else
    match env.getHeaderByNumber cpNo with
    | some cpHeader =>
      match GetM1M2FromCheckpointHeader env cfg cpHeader header with
      | .error e => .error e
      | .ok m => .ok (m creator)
    | none =>
      if no % cfg.epoch = 0 then
        match GetM1M2FromCheckpointHeader env cfg header header with
        | .error e => .error e
        | .ok m => .ok (m creator)
      else .error .noCheckpointHeader

/-- One entry of `snap.Recents` blocks `creator` when it names `creator`
at a height `seen > number - 2` (uint64 subtraction) outside an epoch
boundary — the body of the recency loop in verifySeal. -/
def recencyHit (cfg : Config) (number : Nat) (creator : Address)
    (p : Nat × Address) : Bool :=
  p.2 == creator && decide (p.1 > sub64 number 2) && decide (number % cfg.epoch ≠ 0)

/-- verifySeal (engine.go), with an empty explicit-parents batch (the
`parents` argument is nil on the VerifySeal path): difficulty check,
authorization check, recency rule, and from the second epoch onward the
double-validation pairing. -/
def verifySeal (env : Env) (cfg : Config) (header : Header) (fullVerify : Bool) :
    Except XErr Unit :=
  let number := header.number
  if number = 0 then .error .unknownBlock
  else
    match env.snapshotAt (number - 1) header.parentHash with
    | .error e => .error e
    | .ok snap =>
      match ecrecover env header with
      | .error e => .error e
      | .ok creator =>
        match env.getHeader header.parentHash (number - 1) with
        | none => .error .nilPointer
        | some parent =>
          let difficulty := calcDifficulty env cfg parent creator
          if header.difficulty ≠ difficulty then .error .invalidDifficulty
          else
            let masternodes := GetMasternodes env cfg header
            if snap.signers.contains creator = false ∧
               masternodes.contains creator = false then .error .unauthorized
            else if masternodes.length > 1 ∧
                snap.recents.any (recencyHit cfg number creator) then .error .unauthorized
            else if number > cfg.epoch ∧ fullVerify = true then
              match RecoverValidator env header with
              | .error e => .error e
              | .ok validator =>
                match GetValidator env cfg creator header with
                | .error e => .error e
                | .ok assignedValidator =>
                  if validator ≠ assignedValidator then .error .failedDoubleValidation
                  else .ok ()
            else .ok ()

/-- Modelled from the spec: common.ExtractAddressFromBytes is not part
of the source under verification; per the spec, byte fields such as
`penalties` and the extra middle section are packed concatenations of
20-byte addresses. -/
def extractAddressFromBytes (bs : List Nat) : List Address :=
  (List.range (bs.length / addressLength)).map
    (fun i => (bs.drop (i * addressLength)).take addressLength)

/-- Modelled from the spec: common.ExtractAddressToBytes is not part of
the source under verification; packs a list of addresses back into a
byte string. -/
def extractAddressToBytes (addrs : List Address) : List Nat := addrs.flatten

/-- Modelled from the spec: common.RemoveItemFromArray is not part of
the source under verification; removes every occurrence of the given
items. -/
def removeItemFromArray (xs remove : List Address) : List Address :=
  xs.filter (fun a => ¬ remove.contains a)

/-- Remove the first occurrence of `x`, or fail when absent. -/
def erase1 : List Address → Address → Option (List Address)
  | [], _ => none
  | y :: ys, x => if y = x then some ys else (erase1 ys x).map (y :: ·)

/-- Equality of two lists up to ordering (multiset equality). -/
def sameMembers : List Address → List Address → Bool
  | [], ys => ys.isEmpty
  | x :: xs, ys =>
    match erase1 ys x with
    | none => false
    | some ys2 => sameMembers xs ys2

/-- Modelled from the spec: utils.CompareSignersLists is not part of
the source under verification; per the spec the signer set derived from
the snapshot (or contract) must equal the set encoded in `extra`, so
the comparison is equality up to ordering. -/
def compareSignersLists (a b : List Address) : Bool :=
  sameMembers a b

/-- removePenaltiesFromBlock (engine.go): subtract the penalty list
recorded on the block at `epochNumber` (the `penaltiesAt` oracle covers
the chain lookup; `none` is Go's nil penalties). -/
def removePenaltiesFromBlock (env : Env) (masternodes : List Address)
    (epochNumber : Nat) : List Address :=
  if epochNumber = 0 then masternodes
  else
    match env.penaltiesAt epochNumber with
    | none => masternodes
    | some pbytes => removeItemFromArray masternodes (extractAddressFromBytes pbytes)

/-- The penalty-filter loop of checkSignersOnCheckpoint and Prepare:
remove the penalties of the previous `limitPenaltyEpoch` epochs. -/
def applyPenaltyEpochs (env : Env) (cfg : Config) (number : Nat)
    (signers : List Address) : List Address :=
  (List.range limitPenaltyEpoch).foldl
    (fun acc i =>
      if number > (i + 1) * cfg.epoch then
        removePenaltiesFromBlock env acc (number - (i + 1) * cfg.epoch)
      else acc)
    signers

/-- The penalty-hook call inside checkSignersOnCheckpoint; calling a nil
hook is a Go panic (`nilPointer`). -/
def penaltyHookCall (env : Env) (cfg : Config) (header : Header)
    (signers : List Address) : Except XErr (List Address) :=
  if cfg.isTIPSigning header.number then
    match env.hookPenaltyTIPSigning with
    | some f => f header signers
    | none => .error .nilPointer
  else
    match env.hookPenalty with
    | some f => f header.number
    | none => .error .nilPointer

/-- checkSignersOnCheckpoint (engine.go): penalty-hook agreement with
`header.Penalties`, multi-epoch penalty filtering, and comparison of
the filtered signers against the list encoded in the checkpoint
header's extra, then the optional HookVerifyMNs. -/
def checkSignersOnCheckpoint (env : Env) (cfg : Config) (header : Header)
    (signers : List Address) : Except XErr Unit :=
  let number := header.number
  if number = cfg.ignoreSignerCheckBlock then .ok ()
  else
    let step1 : Except XErr (List Address) :=
      if env.hookPenalty.isSome ∨ env.hookPenaltyTIPSigning.isSome then
        match penaltyHookCall env cfg header signers with
        | .error e => .error e
        | .ok penPenalties =>
          if header.penalties ≠ extractAddressToBytes penPenalties then
            .error .invalidCheckpointPenalties
          else .ok penPenalties
      else .ok []
    match step1 with
    | .error e => .error e
    | .ok penPenalties =>
      let signers1 := removeItemFromArray signers penPenalties
      let signers2 := applyPenaltyEpochs env cfg number signers1
      let extraSuffix := header.extra.length - extraSeal
      let masternodesFromCheckpointHeader :=
        extractAddressFromBytes ((header.extra.take extraSuffix).drop extraVanity)
      if compareSignersLists masternodesFromCheckpointHeader signers2 = false then
        .error .invalidCheckpointSigners
      else
        match env.hookVerifyMNs with
        | some f => f header signers2
        | none => .ok ()

/-- The parent walk of getSignersFromContract: `gap` iterations of
`chain.GetHeader(cur.ParentHash, number - step)` starting from the
checkpoint header. -/
def walkBack (env : Env) (number : Nat) (h : Header) : Nat → Option Header
  | 0 => some h
  | k + 1 =>
    match walkBack env number h k with
    | none => none
    | some cur => env.getHeader cur.parentHash (number - (k + 1))

/-- getSignersFromContract (engine.go): fetch the authorized signer list
from the smart contract anchored at the header `gap` blocks below the
checkpoint.  A failed chain lookup makes the Go loop dereference nil
(`nilPointer`); a hook failure is wrapped (`contractFetch`). -/
def getSignersFromContract (env : Env) (cfg : Config) (checkpointHeader : Header) :
    Except XErr (List Address) :=
  match walkBack env checkpointHeader.number checkpointHeader cfg.gap with
  | none => .error .nilPointer
  | some startGapBlockHeader =>
    match env.hookGetSignersFromContract (env.headerHash startGapBlockHeader) with
    | .error _ => .error .contractFetch
    | .ok signers => .ok signers

/-- verifyCascadingFields (engine.go), with an empty explicit-parents
batch: genesis is always valid; the parent must exist and respect the
minimum period; non-checkpoint headers go to verifySeal; checkpoint
headers must carry the snapshot-derived signer set, with a fallback to
the contract-derived set. -/
def verifyCascadingFields (env : Env) (cfg : Config) (header : Header)
    (fullVerify : Bool) : Except XErr Unit :=
  let number := header.number
  if number = 0 then .ok ()
  else
    match env.getHeader header.parentHash (number - 1) with
    | none => .error .unknownAncestor
    | some parent =>
      if parent.number ≠ number - 1 ∨ env.headerHash parent ≠ header.parentHash then
        .error .unknownAncestor
      else if parent.time + cfg.period > header.time then .error .invalidTimestamp
      else if number % cfg.epoch ≠ 0 then verifySeal env cfg header fullVerify
      else
        match env.snapshotAt (number - 1) header.parentHash with
        | .error e => .error e
        | .ok snap =>
          match checkSignersOnCheckpoint env cfg header snap.signers with
          | .ok () => verifySeal env cfg header fullVerify
          | .error _ =>
            match getSignersFromContract env cfg header with
            | .error e => .error e
            | .ok signers =>
              match checkSignersOnCheckpoint env cfg header signers with
              | .ok () => verifySeal env cfg header fullVerify
              | .error e => .error e

/-- verifyHeader (engine.go): the standalone field checks, in source
order, then the fork-hash check and the cascading checks.
`common.IsTestnet` forces `fullVerify` off.  (The `Number == nil`
check cannot fire in the model.)  The signer-section length is computed
after the two extra-length guards, so the `Nat` subtraction is exact. -/
def verifyHeader (env : Env) (cfg : Config) (header : Header)
    (fullVerify0 : Bool) : Except XErr Unit :=
  let fullVerify := if cfg.isTestnet then false else fullVerify0
  let number := header.number
  if fullVerify = true ∧ number > cfg.epoch ∧ header.validator.length = 0 then
    .error .noValidatorSignature
  else if fullVerify = true ∧ header.time > env.now then .error .futureBlock
  else
    let checkpoint := number % cfg.epoch = 0
    if checkpoint ∧ header.coinbase ≠ zeroAddress then
      .error .invalidCheckpointBeneficiary
    else if header.nonce ≠ nonceAuthVote ∧ header.nonce ≠ nonceDropVote then
      .error .invalidVote
    else if checkpoint ∧ header.nonce ≠ nonceDropVote then
      .error .invalidCheckpointVote
    else if header.extra.length < extraVanity then .error .missingVanity
    else if header.extra.length < extraVanity + extraSeal then .error .missingSignature
    else
      let signersBytes := header.extra.length - extraVanity - extraSeal
      if ¬checkpoint ∧ signersBytes ≠ 0 then .error .extraSigners
      else if checkpoint ∧ signersBytes % addressLength ≠ 0 then
        .error .invalidCheckpointSigners
      else if header.mixDigest ≠ zeroHash then .error .invalidMixDigest
      else if header.uncleHash ≠ emptyUncleHash then .error .invalidUncleHash
      else
        match env.verifyForkHashes header with
        | some e => .error e
        | none => verifyCascadingFields env cfg header fullVerify

/-- Seal (engine.go).  The cancellation channel is modelled by the flag
`stop` ("the stop channel is signalled during this call"); the
recent-signer path blocks on `<-stop`, so with `stop = false` it never
returns — the outer `Option` is `none` there, and `some r` elsewhere,
`r` being Go's `(block, error)` pair: `.ok none` is `(nil, nil)`. -/
def Seal (env : Env) (cfg : Config) (blk : Block) (stop : Bool) :
    Option (Except XErr (Option Block)) :=
  let header := blk.header
  let number := header.number
  if number = 0 then some (.error .unknownBlock)
  else if cfg.period = 0 ∧ blk.txCount = 0 ∧ number % cfg.epoch ≠ 0 then
    some (.error .waitTransactions)
  else
    let signer := env.signer
    match env.snapshotAt (number - 1) header.parentHash with
    | .error e => some (.error e)
    | .ok snap =>
      let masternodes := GetMasternodes env cfg header
      if snap.signers.contains signer = false ∧
         masternodes.contains signer = false then some (.error .unauthorized)
      else if masternodes.length > 1 ∧
          snap.recents.any
            (fun p => p.2 == signer &&
              (decide (number < 2) || decide (p.1 > sub64 number 2)) &&
              decide (number % cfg.epoch ≠ 0)) then
        if stop then some (.ok none) else none
      else if stop then some (.ok none)
      else
        match env.signFn signer (sigHash env header) with
        | .error e => some (.error e)
        | .ok sighash =>
          let sealed := copyBytes (header.extra.drop (header.extra.length - extraSeal))
            sighash
          let header1 :=
            { header with extra := header.extra.take (header.extra.length - extraSeal)
                ++ sealed }
          match GetValidator env cfg signer header1 with
          | .error _ => some (.error .cantGetValidator)
          | .ok m2 =>
            let header2 :=
              if m2 = signer then { header1 with validator := sighash } else header1
            some (.ok (some { blk with header := header2 }))

theorem position_ge_neg_one (M : List Address) (x : Address) : -1 ≤ position M x := by
  induction M with
  | nil => simp [position]
  | cons y ys ih =>
    simp only [position]
    split
    · omega
    · split <;> omega

theorem position_lt_length (M : List Address) (x : Address) :
    position M x < M.length := by
  induction M with
  | nil => simp [position]
  | cons y ys ih =>
    simp only [position, List.length_cons]
    split
    · push_cast; omega
    · have := position_ge_neg_one ys x
      split <;> push_cast <;> omega

theorem position_nonneg_of_mem {M : List Address} {x : Address} (h : x ∈ M) :
    0 ≤ position M x := by
  induction M with
  | nil => cases h
  | cons y ys ih =>
    simp only [position]
    split
    · omega
    · rename_i hne
      have hx : x ∈ ys := by
        cases h with
        | head => exact absurd rfl hne
        | tail _ h2 => exact h2
      have := ih hx
      split <;> omega

theorem position_mem_of_nonneg {M : List Address} {x : Address}
    (h : 0 ≤ position M x) (hne : M ≠ []) : x ∈ M := by
  induction M with
  | nil => simp [position] at h
  | cons y ys ih =>
    simp only [position] at h
    by_cases hy : y = x
    · exact hy ▸ List.mem_cons_self y ys
    · rw [if_neg hy] at h
      split at h
      · omega
      · rename_i hp
        have hys : ys ≠ [] := by
          intro hnil
          subst hnil
          simp [position] at hp
        have : 0 ≤ position ys x := by
          have := position_ge_neg_one ys x
          omega
        exact List.mem_cons_of_mem y (ih this hys)

theorem position_exists {M : List Address} (hnd : M.Nodup) :
    ∀ t : Int, 0 ≤ t → t < M.length → ∃ m, m ∈ M ∧ position M m = t := by
  induction M with
  | nil => intro t h0 h1; simp at h1; omega
  | cons y ys ih =>
    intro t h0 h1
    rcases List.nodup_cons.mp hnd with ⟨hy, hys⟩
    by_cases ht : t = 0
    · exact ⟨y, List.mem_cons_self y ys, by simp [position, ht]⟩
    · have h1' : t - 1 < ys.length := by
        simp only [List.length_cons] at h1; push_cast at h1 ⊢; omega
      obtain ⟨m, hm, hpos⟩ := ih hys (t - 1) (by omega) h1'
      refine ⟨m, List.mem_cons_of_mem y hm, ?_⟩
      have hym : y ≠ m := fun h => hy (h ▸ hm)
      have hge : 0 ≤ position ys m := position_nonneg_of_mem hm
      simp only [position, if_neg hym]
      rw [if_neg (by omega), hpos]
      omega

theorem position_injective {M : List Address} (hnd : M.Nodup) {a b : Address}
    (ha : a ∈ M) (hb : b ∈ M) (h : position M a = position M b) : a = b := by
  induction M with
  | nil => cases ha
  | cons y ys ih =>
    rcases List.nodup_cons.mp hnd with ⟨hy, hys⟩
    simp only [position] at h
    by_cases hya : y = a <;> by_cases hyb : y = b
    · exact hya ▸ hyb
    · rw [if_pos hya, if_neg hyb] at h
      have hbys : b ∈ ys := by
        cases hb with
        | head => exact absurd rfl hyb
        | tail _ h2 => exact h2
      have := position_nonneg_of_mem hbys
      split at h <;> omega
    · rw [if_neg hya, if_pos hyb] at h
      have hays : a ∈ ys := by
        cases ha with
        | head => exact absurd rfl hya
        | tail _ h2 => exact h2
      have := position_nonneg_of_mem hays
      split at h <;> omega
    · rw [if_neg hya, if_neg hyb] at h
      have hays : a ∈ ys := by
        cases ha with
        | head => exact absurd rfl hya
        | tail _ h2 => exact h2
      have hbys : b ∈ ys := by
        cases hb with
        | head => exact absurd rfl hyb
        | tail _ h2 => exact h2
      have h1 := position_nonneg_of_mem hays
      have h2 := position_nonneg_of_mem hbys
      rw [if_neg (by omega), if_neg (by omega)] at h
      exact ih hys hays hbys (by omega)

theorem preIndexOf_ok (env : Env) (M : List Address) (parent : Header)
    (pre : Address) (preIdx : Int)
    (hrec : parent.number ≠ 0 → ecrecover env parent = .ok pre)
    (hpreIdx : preIdx = if parent.number = 0 then -1 else position M pre) :
    preIndexOf env M parent = .ok preIdx := by
  unfold preIndexOf whoIsCreator
  by_cases h0 : parent.number = 0
  · simp [h0, hpreIdx]
  · simp [h0, hrec h0, hpreIdx]

theorem yourTurn_char (env : Env) (cfg : Config) (parent : Header)
    (M : List Address) (snap : SnapshotV1) (preIdx : Int)
    (hM : M = GetMasternodes env cfg parent) (hMne : M ≠ [])
    (hsnap : env.snapshotAt parent.number (env.headerHash parent) = .ok snap)
    (hpio : preIndexOf env M parent = .ok preIdx) :
    ∀ s, YourTurn env cfg parent s =
      ⟨M.length, preIdx, position M s,
        (preIdx + 1).tmod M.length == position M s, none⟩ := by
  intro s
  have hlen : M.length ≠ 0 := fun h => hMne (List.length_eq_zero.mp h)
  simp only [YourTurn, ← hM, hsnap]
  rw [if_neg hlen, hpio]

/-- C1: with masternodes `M` taken from the parent's checkpoint header,
YourTurn reports the signer on turn iff
`(pre_index + 1) mod |M| = cur_index`, where `pre_index` is the position
in `M` of the address recovered from the parent's seal (−1 for a genesis
parent) and `cur_index` the signer's position in `M`; consequently, for
a fixed parent and non-empty `M`, exactly one `m ∈ M` is on turn. -/
theorem C1_yourTurn_rotation (env : Env) (cfg : Config) (parent : Header)
    (signer : Address) (M : List Address) (snap : SnapshotV1)
    (pre : Address) (preIdx : Int)
    (hM : M = GetMasternodes env cfg parent) (hMne : M ≠ [])
    (hsnap : env.snapshotAt parent.number (env.headerHash parent) = .ok snap)
    (hrec : parent.number ≠ 0 → ecrecover env parent = .ok pre)
    (hpreIdx : preIdx = if parent.number = 0 then -1 else position M pre) :
    ((YourTurn env cfg parent signer).ok = true ↔
      (preIdx + 1).tmod M.length = position M signer)
    ∧ (YourTurn env cfg parent signer).err = none
    ∧ (M.Nodup → ∃! m, m ∈ M ∧ (YourTurn env cfg parent m).ok = true) := by
  have hpio := preIndexOf_ok env M parent pre preIdx hrec hpreIdx
  have hyt := yourTurn_char env cfg parent M snap preIdx hM hMne hsnap hpio
  have hlenpos : 0 < M.length := List.length_pos.mpr hMne
  have hpre1 : 0 ≤ preIdx + 1 := by
    have : -1 ≤ preIdx := by
      rw [hpreIdx]; split
      · omega
      · exact position_ge_neg_one M pre
    omega
  refine ⟨?_, ?_, ?_⟩
  · rw [hyt signer]
    simp [beq_iff_eq]
  · rw [hyt signer]
  · intro hnd
    set t : Int := (preIdx + 1).tmod M.length with ht
    have ht0 : 0 ≤ t := Int.tmod_nonneg _ hpre1
    have htl : t < (M.length : Int) := by
      exact Int.tmod_lt_of_pos _ (by exact_mod_cast hlenpos)
    obtain ⟨m, hm, hpm⟩ := position_exists hnd t ht0 htl
    refine ⟨m, ⟨hm, ?_⟩, ?_⟩
    · rw [hyt m]
      simp [beq_iff_eq, hpm]
    · rintro y ⟨hy, hok⟩
      rw [hyt y] at hok
      simp only [beq_iff_eq] at hok
      exact position_injective hnd hy hm (by rw [← hok, hpm])

/-- Concrete witness material: three distinct masternode addresses. -/
def addrA : Address := 10 :: List.replicate 19 0

def addrB : Address := 11 :: List.replicate 19 0

def addrC : Address := 12 :: List.replicate 19 0

def mwList : List Address := [addrA, addrB, addrC]

/-- A 65-byte seal whose first 20 bytes name the signing address (the
witness `cryptoEcrecover` recovers exactly those bytes). -/
def mkSeal (a : Address) : List Nat := a ++ List.replicate 45 0

/-- Witness genesis/checkpoint header carrying `mwList` in its extra. -/
def hdr0 : Header :=
  { parentHash := [], uncleHash := emptyUncleHash, coinbase := zeroAddress,
    root := zeroHash, txHash := zeroHash, receiptHash := zeroHash,
    bloom := List.replicate 256 0, difficulty := 0, number := 0,
    gasLimit := 0, gasUsed := 0, time := 0,
    extra := List.replicate 32 0 ++ (addrA ++ addrB ++ addrC) ++ mkSeal zeroAddress,
    mixDigest := zeroHash, nonce := nonceDropVote,
    validators := [], validator := [], penalties := [] }

/-- Witness header at height 1 whose seal recovers to `addrA`. -/
def hdr1 : Header :=
  { parentHash := [], uncleHash := emptyUncleHash, coinbase := zeroAddress,
    root := zeroHash, txHash := zeroHash, receiptHash := zeroHash,
    bloom := List.replicate 256 0, difficulty := 3, number := 1,
    gasLimit := 0, gasUsed := 0, time := 2,
    extra := List.replicate 32 0 ++ mkSeal addrA,
    mixDigest := zeroHash, nonce := nonceDropVote,
    validators := [], validator := [], penalties := [] }

/-- Witness snapshot: all three masternodes authorized, no recents. -/
def snapW : SnapshotV1 := { number := 0, hash := [], signers := mwList, recents := [] }

/-- Witness configuration (mainnet-like constants). -/
def cfgW : Config :=
  { epoch := 900, gap := 450, period := 2, isTestnet := false,
    isTIPSigning := fun _ => false, ignoreSignerCheckBlock := 14458500,
    epocBlockRandomize := 900 }

/-- Witness environment: keccak is truncation/padding to 32 bytes, and
public-key recovery hands back the first 20 bytes of the signature as
the address, so each header's creator is spelled out in its seal. -/
def envW : Env :=
  { now := 1000, signer := addrB,
    keccak := fun bs => (bs ++ List.replicate 32 0).take 32,
    cryptoEcrecover := fun _ sig => some (0 :: (List.replicate 12 0 ++ sig.take 20)),
    headerHash := fun h => [h.number],
    signFn := fun _ _ => .ok (mkSeal addrB),
    getHeader := fun _ n => if n = 0 then some hdr0 else none,
    getHeaderByNumber := fun n => if n = 0 then some hdr0 else none,
    snapshotAt := fun _ _ => .ok snapW,
    verifyForkHashes := fun _ => none,
    hookPenalty := none, hookPenaltyTIPSigning := none, hookVerifyMNs := none,
    hookGetSignersFromContract := fun _ => .ok mwList,
    getM1M2 := fun _ _ _ => .ok (fun _ => addrB),
    penaltiesAt := fun _ => none }

set_option maxRecDepth 100000 in
theorem C1_yourTurn_rotation_witness :
    ((YourTurn envW cfgW hdr1 addrB).ok = true ↔
      (position mwList addrA + 1).tmod mwList.length = position mwList addrB)
    ∧ (YourTurn envW cfgW hdr1 addrB).err = none
    ∧ (mwList.Nodup → ∃! m, m ∈ mwList ∧ (YourTurn envW cfgW hdr1 m).ok = true) :=
  C1_yourTurn_rotation envW cfgW hdr1 addrB mwList snapW addrA
    (position mwList addrA) (by decide) (by decide) rfl
    (fun _ => by decide) (by decide)

/-- C2: two headers with extra at least 65 bytes long that differ only
in the final 65 bytes of extra (all other header fields equal) have the
same sigHash: the signing hash covers every RLP-encoded header field
except the last 65 bytes of extra. -/
theorem C2_sigHash_ignores_seal (env : Env) (ha hb : Header)
    (hlena : extraSeal ≤ ha.extra.length) (hlenb : extraSeal ≤ hb.extra.length)
    (hextra : ha.extra.take (ha.extra.length - extraSeal) =
      hb.extra.take (hb.extra.length - extraSeal))
    (e1 : ha.parentHash = hb.parentHash) (e2 : ha.uncleHash = hb.uncleHash)
    (e3 : ha.coinbase = hb.coinbase) (e4 : ha.root = hb.root)
    (e5 : ha.txHash = hb.txHash) (e6 : ha.receiptHash = hb.receiptHash)
    (e7 : ha.bloom = hb.bloom) (e8 : ha.difficulty = hb.difficulty)
    (e9 : ha.number = hb.number) (e10 : ha.gasLimit = hb.gasLimit)
    (e11 : ha.gasUsed = hb.gasUsed) (e12 : ha.time = hb.time)
    (e13 : ha.mixDigest = hb.mixDigest) (e14 : ha.nonce = hb.nonce)
    (e15 : ha.validators = hb.validators) (e16 : ha.validator = hb.validator)
    (e17 : ha.penalties = hb.penalties) :
    sigHash env ha = sigHash env hb := by
  unfold sigHash sigHashInput
  rw [e1, e2, e3, e4, e5, e6, e7, e8, e9, e10, e11, e12, e13, e14, hextra]

/-- A copy of `hdr1` with a different seal (recovering to `addrC`). -/
def hdr1b : Header := { hdr1 with extra := List.replicate 32 0 ++ mkSeal addrC }

set_option maxRecDepth 100000 in
theorem C2_sigHash_ignores_seal_witness : sigHash envW hdr1 = sigHash envW hdr1b :=
  C2_sigHash_ignores_seal envW hdr1 hdr1b (by decide) (by decide) (by decide)
    rfl rfl rfl rfl rfl rfl rfl rfl rfl rfl rfl rfl rfl rfl rfl (by decide) rfl

theorem preIndexOf_ge_neg_one (env : Env) (M : List Address) (parent : Header)
    (i : Int) (h : preIndexOf env M parent = .ok i) : -1 ≤ i := by
  unfold preIndexOf at h
  split at h
  · cases h; omega
  · split at h
    · cases h
    · cases h; exact position_ge_neg_one M _

theorem yourTurn_err_none_inv (env : Env) (cfg : Config) (parent : Header)
    (s : Address) (h : (YourTurn env cfg parent s).err = none) :
    ∃ snap preIdx,
      env.snapshotAt parent.number (env.headerHash parent) = .ok snap ∧
      GetMasternodes env cfg parent ≠ [] ∧
      preIndexOf env (GetMasternodes env cfg parent) parent = .ok preIdx := by
  unfold YourTurn at h
  rcases hsnap : env.snapshotAt parent.number (env.headerHash parent) with e | snap
  · rw [hsnap] at h; simp at h
  · rw [hsnap] at h
    dsimp only at h
    by_cases hlen : (GetMasternodes env cfg parent).length = 0
    · rw [if_pos hlen] at h; simp at h
    · rw [if_neg hlen] at h
      rcases hpio : preIndexOf env (GetMasternodes env cfg parent) parent with e | i
      · rw [hpio] at h; simp at h
      · exact ⟨snap, i, rfl, fun hnil => hlen (by rw [hnil]; rfl), rfl⟩

/-- C3: whenever YourTurn succeeds, calcDifficulty returns
`|masternodes| − hop(|masternodes|, pre_index, cur_index)` with hop the
forward rotation distance modulo the set size; and for a fixed parent
the on-turn signer's difficulty strictly exceeds every off-turn
masternode's difficulty. -/
theorem C3_difficulty (env : Env) (cfg : Config) (parent : Header)
    (signer s1 s2 : Address)
    (hs : (YourTurn env cfg parent signer).err = none)
    (h1e : (YourTurn env cfg parent s1).err = none)
    (h1ok : (YourTurn env cfg parent s1).ok = true)
    (h2e : (YourTurn env cfg parent s2).err = none)
    (h2ok : (YourTurn env cfg parent s2).ok = false)
    (h2m : s2 ∈ GetMasternodes env cfg parent) :
    (calcDifficulty env cfg parent signer =
      ((YourTurn env cfg parent signer).len : Int) -
        Hop (YourTurn env cfg parent signer).len
          (YourTurn env cfg parent signer).preIndex
          (YourTurn env cfg parent signer).curIndex)
    ∧ calcDifficulty env cfg parent s2 < calcDifficulty env cfg parent s1 := by
  constructor
  · simp [calcDifficulty, hs]
  · obtain ⟨snap, preIdx, hsnap, hMne, hpio⟩ := yourTurn_err_none_inv env cfg parent s1 h1e
    have hyt := yourTurn_char env cfg parent (GetMasternodes env cfg parent) snap preIdx
      rfl hMne hsnap hpio
    set M := GetMasternodes env cfg parent with hMdef
    have hLpos : (0 : Int) < M.length := by
      exact_mod_cast List.length_pos.mpr hMne
    have hpre1 : 0 ≤ preIdx + 1 := by
      have := preIndexOf_ge_neg_one env M parent preIdx hpio
      omega
    have htmod : (preIdx + 1).tmod M.length = (preIdx + 1) % (M.length : Int) :=
      Int.tmod_eq_emod hpre1 (by omega)
    have hc1 : position M s1 = (preIdx + 1) % (M.length : Int) := by
      have := h1ok
      rw [hyt s1] at this
      simp only [beq_iff_eq] at this
      rw [← htmod, this]
    have hc2 : position M s2 ≠ (preIdx + 1) % (M.length : Int) := by
      have := h2ok
      rw [hyt s2] at this
      simp only [beq_eq_false_iff_ne, ne_eq] at this
      rw [← htmod]
      exact fun hx => this (hx.symm)
    have hhop1 : Hop M.length preIdx (position M s1) = 0 := by
      unfold Hop
      rw [hc1, Int.sub_emod, Int.emod_emod_of_dvd _ dvd_rfl]
      simp
    have hc2mem0 : 0 ≤ position M s2 := position_nonneg_of_mem h2m
    have hc2lt : position M s2 < (M.length : Int) := position_lt_length M s2
    have hhop2pos : 0 < Hop M.length preIdx (position M s2) := by
      have hnn : 0 ≤ Hop M.length preIdx (position M s2) :=
        Int.emod_nonneg _ (by omega)
      rcases hnn.lt_or_eq with hlt | heq
      · exact hlt
      · exfalso
        apply hc2
        have hz : (position M s2 - (preIdx + 1)) % (M.length : Int) = 0 := heq.symm
        have := (Int.emod_eq_emod_iff_emod_sub_eq_zero).mpr hz
        rw [Int.emod_eq_of_lt hc2mem0 hc2lt] at this
        exact this
    have hd1 : calcDifficulty env cfg parent s1 = (M.length : Int) := by
      simp only [calcDifficulty, hyt s1]
      rw [hhop1]
      simp
    have hd2 : calcDifficulty env cfg parent s2 =
        (M.length : Int) - Hop M.length preIdx (position M s2) := by
      simp only [calcDifficulty, hyt s2]
    rw [hd1, hd2]
    omega

set_option maxRecDepth 100000 in
theorem C3_difficulty_witness :
    (calcDifficulty envW cfgW hdr1 addrB =
      ((YourTurn envW cfgW hdr1 addrB).len : Int) -
        Hop (YourTurn envW cfgW hdr1 addrB).len
          (YourTurn envW cfgW hdr1 addrB).preIndex
          (YourTurn envW cfgW hdr1 addrB).curIndex)
    ∧ calcDifficulty envW cfgW hdr1 addrA < calcDifficulty envW cfgW hdr1 addrB :=
  C3_difficulty envW cfgW hdr1 addrB addrB addrA (by decide) (by decide)
    (by decide) (by decide) (by decide) (by decide)

theorem verifySeal_validator_section (env : Env) (cfg : Config) (header : Header)
    (snap : SnapshotV1) (creator : Address) (parent : Header)
    (hn0 : header.number ≠ 0)
    (hsnap : env.snapshotAt (header.number - 1) header.parentHash = .ok snap)
    (hc : ecrecover env header = .ok creator)
    (hp : env.getHeader header.parentHash (header.number - 1) = some parent)
    (hdiff : header.difficulty = calcDifficulty env cfg parent creator)
    (hauth : (snap.signers.contains creator ||
      (GetMasternodes env cfg header).contains creator) = true)
    (hrec : ¬((GetMasternodes env cfg header).length > 1 ∧
      snap.recents.any (recencyHit cfg header.number creator) = true))
    (hepoch : header.number > cfg.epoch) :
    verifySeal env cfg header true =
      match RecoverValidator env header with
      | .error e => .error e
      | .ok validator =>
        match GetValidator env cfg creator header with
        | .error e => .error e
        | .ok assignedValidator =>
          if validator ≠ assignedValidator then .error .failedDoubleValidation
          else .ok () := by
  unfold verifySeal
  rw [if_neg hn0, hsnap, hc, hp]
  dsimp only
  rw [if_neg (not_ne_iff.mpr hdiff)]
  have hauth2 : ¬(snap.signers.contains creator = false ∧
      (GetMasternodes env cfg header).contains creator = false) := by
    rintro ⟨h1, h2⟩
    rcases Bool.or_eq_true_iff.mp hauth with h | h
    · rw [h1] at h; cases h
    · rw [h2] at h; cases h
  rw [if_neg hauth2, if_neg hrec, if_pos ⟨hepoch, rfl⟩]

/-- C4: for a header past the first epoch under full verification (all
earlier seal checks passing), verifySeal recovers the co-validator from
the 65-byte `header.Validator` signature and fails with
`failedDoubleValidation` exactly when it differs from the validator the
epoch's m1→m2 map assigns to the creator; a `validator` field that is
not 65 bytes long is rejected with `failValidatorSignature`. -/
theorem C4_double_validation (env : Env) (cfg : Config) (header : Header)
    (snap : SnapshotV1) (creator : Address) (parent : Header)
    (hn0 : header.number ≠ 0)
    (hsnap : env.snapshotAt (header.number - 1) header.parentHash = .ok snap)
    (hc : ecrecover env header = .ok creator)
    (hp : env.getHeader header.parentHash (header.number - 1) = some parent)
    (hdiff : header.difficulty = calcDifficulty env cfg parent creator)
    (hauth : (snap.signers.contains creator ||
      (GetMasternodes env cfg header).contains creator) = true)
    (hrec : ¬((GetMasternodes env cfg header).length > 1 ∧
      snap.recents.any (recencyHit cfg header.number creator) = true))
    (hepoch : header.number > cfg.epoch) :
    (header.validator.length ≠ extraSeal →
      verifySeal env cfg header true = .error .failValidatorSignature)
    ∧ (∀ validator assignedValidator,
        RecoverValidator env header = .ok validator →
        GetValidator env cfg creator header = .ok assignedValidator →
        (verifySeal env cfg header true = .error .failedDoubleValidation ↔
          validator ≠ assignedValidator)) := by
  have hred := verifySeal_validator_section env cfg header snap creator parent
    hn0 hsnap hc hp hdiff hauth hrec hepoch
  constructor
  · intro hlen
    rw [hred]
    unfold RecoverValidator
    rw [if_pos hlen]
  · intro validator assignedValidator hrv hgv
    rw [hred, hrv, hgv]
    dsimp only
    by_cases hv : validator = assignedValidator
    · rw [if_neg (not_ne_iff.mpr hv)]
      simp [hv]
    · rw [if_pos hv]
      simp [hv]

/-- Small-epoch configuration for double-validation witnesses. -/
def cfgV : Config :=
  { epoch := 2, gap := 1, period := 2, isTestnet := false,
    isTIPSigning := fun _ => false, ignoreSignerCheckBlock := 14458500,
    epocBlockRandomize := 2 }

/-- Checkpoint header at height 2 carrying `mwList`; its seal recovers
to `addrC`. -/
def cp2 : Header :=
  { parentHash := [1], uncleHash := emptyUncleHash, coinbase := zeroAddress,
    root := zeroHash, txHash := zeroHash, receiptHash := zeroHash,
    bloom := List.replicate 256 0, difficulty := 1, number := 2,
    gasLimit := 0, gasUsed := 0, time := 4,
    extra := List.replicate 32 0 ++ (addrA ++ addrB ++ addrC) ++ mkSeal addrC,
    mixDigest := zeroHash, nonce := nonceDropVote,
    validators := [], validator := [], penalties := [] }

/-- Header at height 3: creator `addrA` (on turn after `addrC`, so
difficulty 3), co-validator signature recovering to `addrC`. -/
def hdrV : Header :=
  { parentHash := [2], uncleHash := emptyUncleHash, coinbase := zeroAddress,
    root := zeroHash, txHash := zeroHash, receiptHash := zeroHash,
    bloom := List.replicate 256 0, difficulty := 3, number := 3,
    gasLimit := 0, gasUsed := 0, time := 6,
    extra := List.replicate 32 0 ++ mkSeal addrA,
    mixDigest := zeroHash, nonce := nonceDropVote,
    validators := [], validator := mkSeal addrC, penalties := [] }

/-- Environment for the double-validation witness: the chain knows the
checkpoint at height 2, and the m1→m2 map assigns `addrB` to every
masternode. -/
def envV : Env :=
  { envW with
    getHeaderByNumber := fun n =>
      if n = 2 then some cp2 else if n = 0 then some hdr0 else none,
    getHeader := fun _ n =>
      if n = 2 then some cp2 else if n = 0 then some hdr0 else none }

set_option maxRecDepth 1000000 in
theorem C4_double_validation_witness :
    verifySeal envV cfgV hdrV true = .error .failedDoubleValidation ↔
      addrC ≠ addrB :=
  (C4_double_validation envV cfgV hdrV snapW addrA cp2 (by decide) rfl
    (by decide) (by decide) (by decide) (by decide) (by decide) (by decide)).2
    addrC addrB (by decide) (by decide)

/-- Configuration with a 10-block epoch for the recency examples. -/
def cfgX : Config :=
  { epoch := 10, gap := 5, period := 2, isTestnet := false,
    isTIPSigning := fun _ => false, ignoreSignerCheckBlock := 14458500,
    epocBlockRandomize := 10 }

/-- Checkpoint header at height 0 carrying the single masternode
`addrA`. -/
def cp0X : Header :=
  { parentHash := [], uncleHash := emptyUncleHash, coinbase := zeroAddress,
    root := zeroHash, txHash := zeroHash, receiptHash := zeroHash,
    bloom := List.replicate 256 0, difficulty := 0, number := 0,
    gasLimit := 0, gasUsed := 0, time := 0,
    extra := List.replicate 32 0 ++ addrA ++ mkSeal zeroAddress,
    mixDigest := zeroHash, nonce := nonceDropVote,
    validators := [], validator := [], penalties := [] }

/-- Parent at height 4, sealed by `addrA`. -/
def hdrX4 : Header :=
  { parentHash := [3], uncleHash := emptyUncleHash, coinbase := zeroAddress,
    root := zeroHash, txHash := zeroHash, receiptHash := zeroHash,
    bloom := List.replicate 256 0, difficulty := 1, number := 4,
    gasLimit := 0, gasUsed := 0, time := 8,
    extra := List.replicate 32 0 ++ mkSeal addrA,
    mixDigest := zeroHash, nonce := nonceDropVote,
    validators := [], validator := [], penalties := [] }

/-- Header at height 5 sealed by `addrA`, although `addrA` already
appears in the snapshot's recents at height 4. -/
def hdrX : Header :=
  { parentHash := [4], uncleHash := emptyUncleHash, coinbase := zeroAddress,
    root := zeroHash, txHash := zeroHash, receiptHash := zeroHash,
    bloom := List.replicate 256 0, difficulty := 1, number := 5,
    gasLimit := 0, gasUsed := 0, time := 10,
    extra := List.replicate 32 0 ++ mkSeal addrA,
    mixDigest := zeroHash, nonce := nonceDropVote,
    validators := [], validator := [], penalties := [] }

/-- Snapshot with the single signer `addrA`, who signed height 4. -/
def snapX : SnapshotV1 :=
  { number := 4, hash := [], signers := [addrA], recents := [(4, addrA)] }

/-- Environment whose chain has exactly one masternode. -/
def envX : Env :=
  { envW with
    getHeaderByNumber := fun n => if n = 0 then some cp0X else none,
    getHeader := fun _ n =>
      if n = 4 then some hdrX4 else if n = 0 then some cp0X else none,
    snapshotAt := fun _ _ => .ok snapX }

set_option maxRecDepth 1000000 in
/-- Counterexample to C5 as stated: header 5 is not on an epoch
boundary, its recovered creator `addrA` sits in the snapshot's recents
at height 4 > 5 − 2, yet verifySeal accepts it — the recency rule is
skipped because the masternode list has a single element. -/
theorem C5_counterexample :
    hdrX.number ≠ 0
    ∧ ecrecover envX hdrX = .ok addrA
    ∧ (4, addrA) ∈ snapX.recents
    ∧ 4 > hdrX.number - 2
    ∧ hdrX.number % cfgX.epoch ≠ 0
    ∧ verifySeal envX cfgX hdrX true = .ok ()
    ∧ verifySeal envX cfgX hdrX true ≠ .error .unauthorized := by
  refine ⟨by decide, by decide, by decide, by decide, by decide, ?_, ?_⟩ <;> decide

/-- C5 (amended): for every header at height ≥ 2 whose recovered
creator appears in the snapshot's recents at a height `seen` with
`seen > number − 2`, verifySeal returns `unauthorized` — provided the
header is not on an epoch boundary **and the masternode list has more
than one element** (the source skips the recency rule for singleton
masternode lists); the earlier difficulty and authorization checks are
assumed to pass, and heights are uint64 values. -/
theorem C5_recency_rule (env : Env) (cfg : Config) (header : Header)
    (snap : SnapshotV1) (creator : Address) (parent : Header) (seen : Nat)
    (fullVerify : Bool)
    (hn2 : 2 ≤ header.number) (hn64 : header.number < 2 ^ 64)
    (hsnap : env.snapshotAt (header.number - 1) header.parentHash = .ok snap)
    (hc : ecrecover env header = .ok creator)
    (hp : env.getHeader header.parentHash (header.number - 1) = some parent)
    (hdiff : header.difficulty = calcDifficulty env cfg parent creator)
    (hauth : (snap.signers.contains creator ||
      (GetMasternodes env cfg header).contains creator) = true)
    (hlen : 1 < (GetMasternodes env cfg header).length)
    (hseen : (seen, creator) ∈ snap.recents)
    (hrecent : seen > header.number - 2)
    (hep : header.number % cfg.epoch ≠ 0) :
    verifySeal env cfg header fullVerify = .error .unauthorized := by
  unfold verifySeal
  rw [if_neg (by omega : ¬header.number = 0), hsnap, hc, hp]
  dsimp only
  rw [if_neg (not_ne_iff.mpr hdiff)]
  have hauth2 : ¬(snap.signers.contains creator = false ∧
      (GetMasternodes env cfg header).contains creator = false) := by
    rintro ⟨h1, h2⟩
    rcases Bool.or_eq_true_iff.mp hauth with h | h
    · rw [h1] at h; cases h
    · rw [h2] at h; cases h
  rw [if_neg hauth2]
  have hsub : sub64 header.number 2 = header.number - 2 := by
    unfold sub64
    omega
  have hany : snap.recents.any (recencyHit cfg header.number creator) = true := by
    rw [List.any_eq_true]
    refine ⟨(seen, creator), hseen, ?_⟩
    unfold recencyHit
    rw [hsub]
    simp [hrecent, hep]
  rw [if_pos ⟨hlen, hany⟩]

/-- Parent at height 4 sealed by `addrC`. -/
def hdrY4 : Header := { hdrX4 with extra := List.replicate 32 0 ++ mkSeal addrC }

/-- Header at height 5 sealed by `addrA` with the on-turn difficulty 3. -/
def hdrY : Header := { hdrX with difficulty := 3 }

/-- Snapshot with the three masternodes, `addrA` having signed height 4. -/
def snapY : SnapshotV1 :=
  { number := 4, hash := [], signers := mwList, recents := [(4, addrA)] }

/-- Environment with three masternodes for the recency witness. -/
def envY : Env :=
  { envW with
    getHeader := fun _ n =>
      if n = 4 then some hdrY4 else if n = 0 then some hdr0 else none,
    snapshotAt := fun _ _ => .ok snapY }

set_option maxRecDepth 1000000 in
theorem C5_recency_rule_witness :
    verifySeal envY cfgX hdrY true = .error .unauthorized :=
  C5_recency_rule envY cfgX hdrY snapY addrA hdrY4 4 true (by decide) (by decide)
    rfl (by decide) (by decide) (by decide) (by decide) (by decide) (by decide)
    (by decide) (by decide)

/-- C6: for a checkpoint header (number ≡ 0 mod Epoch) past the
full-verification gates, verifyHeader rejects a non-zero coinbase with
`invalidCheckpointBeneficiary`, a valid-vote nonce other than the
drop-vote with `invalidCheckpointVote`, and a signer section that is
not a whole number of 20-byte addresses with
`invalidCheckpointSigners`; a non-checkpoint header with a non-empty
signer section is rejected with `extraSigners`.  Each clause assumes
the checks the source runs before it pass. -/
theorem C6_checkpoint_field_rules (env : Env) (cfg : Config) (header : Header)
    (fullVerify : Bool)
    (hgate : (if cfg.isTestnet then false else fullVerify) = true →
      (¬(header.number > cfg.epoch ∧ header.validator.length = 0) ∧
       header.time ≤ env.now)) :
    (header.number % cfg.epoch = 0 → header.coinbase ≠ zeroAddress →
      verifyHeader env cfg header fullVerify = .error .invalidCheckpointBeneficiary)
    ∧ (header.number % cfg.epoch = 0 → header.coinbase = zeroAddress →
        (header.nonce = nonceAuthVote ∨ header.nonce = nonceDropVote) →
        header.nonce ≠ nonceDropVote →
        verifyHeader env cfg header fullVerify = .error .invalidCheckpointVote)
    ∧ (header.number % cfg.epoch = 0 → header.coinbase = zeroAddress →
        header.nonce = nonceDropVote →
        extraVanity + extraSeal ≤ header.extra.length →
        (header.extra.length - extraVanity - extraSeal) % addressLength ≠ 0 →
        verifyHeader env cfg header fullVerify = .error .invalidCheckpointSigners)
    ∧ (header.number % cfg.epoch ≠ 0 →
        (header.nonce = nonceAuthVote ∨ header.nonce = nonceDropVote) →
        extraVanity + extraSeal ≤ header.extra.length →
        header.extra.length ≠ extraVanity + extraSeal →
        verifyHeader env cfg header fullVerify = .error .extraSigners) := by
  have hfv1 : ¬((if cfg.isTestnet then false else fullVerify) = true ∧
      header.number > cfg.epoch ∧ header.validator.length = 0) := by
    rintro ⟨hfv, hx⟩
    exact (hgate hfv).1 hx
  have hfv2 : ¬((if cfg.isTestnet then false else fullVerify) = true ∧
      header.time > env.now) := by
    rintro ⟨hfv, hx⟩
    exact absurd (hgate hfv).2 (by omega)
  refine ⟨?_, ?_, ?_, ?_⟩
  · intro hcp hcb
    unfold verifyHeader
    rw [if_neg hfv1, if_neg hfv2, if_pos ⟨hcp, hcb⟩]
  · intro hcp hcb hvote hnd
    unfold verifyHeader
    rw [if_neg hfv1, if_neg hfv2, if_neg (by rintro ⟨_, hx⟩; exact hx hcb),
      if_neg (by rintro ⟨h1, h2⟩; rcases hvote with h | h; exacts [h1 h, h2 h]),
      if_pos ⟨hcp, hnd⟩]
  · intro hcp hcb hnd hext hmod
    unfold verifyHeader
    rw [if_neg hfv1, if_neg hfv2, if_neg (by rintro ⟨_, hx⟩; exact hx hcb),
      if_neg (by rintro ⟨_, h2⟩; exact h2 hnd),
      if_neg (by rintro ⟨_, hx⟩; exact hx hnd),
      if_neg (by simp only [extraVanity, extraSeal, addressLength] at hext ⊢; omega),
      if_neg (by simp only [extraVanity, extraSeal, addressLength] at hext ⊢; omega),
      if_neg (by rintro ⟨hx, _⟩; exact hx hcp), if_pos ⟨hcp, hmod⟩]
  · intro hncp hvote hext hlen
    unfold verifyHeader
    rw [if_neg hfv1, if_neg hfv2, if_neg (by rintro ⟨hx, _⟩; exact hncp hx),
      if_neg (by rintro ⟨h1, h2⟩; rcases hvote with h | h; exacts [h1 h, h2 h]),
      if_neg (by rintro ⟨hx, _⟩; exact hncp hx),
      if_neg (by simp only [extraVanity, extraSeal] at hext ⊢; omega),
      if_neg (by simp only [extraVanity, extraSeal] at hext ⊢; omega),
      if_pos ⟨hncp, by simp only [extraVanity, extraSeal] at hext hlen ⊢; omega⟩]

/-- Checkpoint header at height 900 with a non-zero coinbase. -/
def hdrC6 : Header := { hdr0 with number := 900, coinbase := addrA }

theorem C6_checkpoint_field_rules_witness :
    verifyHeader envW cfgW hdrC6 false = .error .invalidCheckpointBeneficiary :=
  (C6_checkpoint_field_rules envW cfgW hdrC6 false (by decide)).1
    (by decide) (by decide)

/-- C7: under full verification (and off the testnet override), a
header whose timestamp lies in the future is rejected with
`futureBlock`, provided the validator-presence gate before it passes. -/
theorem C7_future_block (env : Env) (cfg : Config) (header : Header)
    (htn : cfg.isTestnet = false)
    (hval : ¬(header.number > cfg.epoch ∧ header.validator.length = 0))
    (hfut : header.time > env.now) :
    verifyHeader env cfg header true = .error .futureBlock := by
  have hfv : (if cfg.isTestnet then false else true) = true := by
    rw [htn]; decide
  unfold verifyHeader
  rw [hfv]
  dsimp only
  rw [if_neg (by rintro ⟨_, hx⟩; exact hval hx), if_pos ⟨rfl, hfut⟩]

/-- Header at height 1 whose timestamp (5000) exceeds the witness
clock (1000). -/
def hdrC7 : Header := { hdr1 with time := 5000 }

theorem C7_future_block_witness :
    verifyHeader envW cfgW hdrC7 true = .error .futureBlock :=
  C7_future_block envW cfgW hdrC7 (by decide) (by decide) (by decide)

/-- C8: for a checkpoint header past the parent and timestamp checks
whose snapshot-derived signer set fails the checkpoint-signer check,
verification falls back to the signer list the contract hook returns
for the header `gap` blocks below the checkpoint; the header proceeds
to seal verification when that contract-derived list passes the
checkpoint-signer check and is rejected with that check's error
otherwise. -/
theorem C8_contract_fallback (env : Env) (cfg : Config) (header : Header)
    (fullVerify : Bool) (parent : Header) (snap : SnapshotV1)
    (s2 : List Address) (e1 : XErr)
    (hep : header.number % cfg.epoch = 0) (hn0 : header.number ≠ 0)
    (hp : env.getHeader header.parentHash (header.number - 1) = some parent)
    (hpn : parent.number = header.number - 1)
    (hph : env.headerHash parent = header.parentHash)
    (hts : parent.time + cfg.period ≤ header.time)
    (hsnap : env.snapshotAt (header.number - 1) header.parentHash = .ok snap)
    (hfail : checkSignersOnCheckpoint env cfg header snap.signers = .error e1)
    (hcontract : getSignersFromContract env cfg header = .ok s2) :
    (∀ anc, walkBack env header.number header cfg.gap = some anc →
      env.hookGetSignersFromContract (env.headerHash anc) = .ok s2)
    ∧ (checkSignersOnCheckpoint env cfg header s2 = .ok () →
        verifyCascadingFields env cfg header fullVerify =
          verifySeal env cfg header fullVerify)
    ∧ (∀ e2, checkSignersOnCheckpoint env cfg header s2 = .error e2 →
        verifyCascadingFields env cfg header fullVerify = .error e2) := by
  have hred : verifyCascadingFields env cfg header fullVerify =
      match checkSignersOnCheckpoint env cfg header s2 with
      | .ok () => verifySeal env cfg header fullVerify
      | .error e => .error e := by
    unfold verifyCascadingFields
    rw [if_neg hn0, hp]
    dsimp only
    rw [if_neg (not_or.mpr ⟨not_ne_iff.mpr hpn, not_ne_iff.mpr hph⟩),
      if_neg (by omega), if_neg (not_ne_iff.mpr hep), hsnap]
    dsimp only
    rw [hfail]
    dsimp only
    rw [hcontract]
  refine ⟨?_, ?_, ?_⟩
  · intro anc hw
    unfold getSignersFromContract at hcontract
    rw [hw] at hcontract
    dsimp only at hcontract
    rcases hhook : env.hookGetSignersFromContract (env.headerHash anc) with e | s
    · rw [hhook] at hcontract; cases hcontract
    · rw [hhook] at hcontract
      cases hcontract
      rfl
  · intro hok
    rw [hred, hok]
  · intro e2 herr
    rw [hred, herr]

/-- Epoch-10 configuration with gap 2 for the contract-fallback witness. -/
def cfgZ : Config :=
  { epoch := 10, gap := 2, period := 2, isTestnet := false,
    isTIPSigning := fun _ => false, ignoreSignerCheckBlock := 14458500,
    epocBlockRandomize := 10 }

/-- Ancestor at height 8 (the gap anchor). -/
def h8 : Header :=
  { parentHash := [7], uncleHash := emptyUncleHash, coinbase := zeroAddress,
    root := zeroHash, txHash := zeroHash, receiptHash := zeroHash,
    bloom := List.replicate 256 0, difficulty := 1, number := 8,
    gasLimit := 0, gasUsed := 0, time := 16,
    extra := List.replicate 32 0 ++ mkSeal addrA,
    mixDigest := zeroHash, nonce := nonceDropVote,
    validators := [], validator := [], penalties := [] }

/-- Parent at height 9. -/
def h9 : Header :=
  { parentHash := [8], uncleHash := emptyUncleHash, coinbase := zeroAddress,
    root := zeroHash, txHash := zeroHash, receiptHash := zeroHash,
    bloom := List.replicate 256 0, difficulty := 1, number := 9,
    gasLimit := 0, gasUsed := 0, time := 18,
    extra := List.replicate 32 0 ++ mkSeal addrC,
    mixDigest := zeroHash, nonce := nonceDropVote,
    validators := [], validator := [], penalties := [] }

/-- Checkpoint header at height 10 encoding the three masternodes. -/
def hdrZ : Header :=
  { parentHash := [9], uncleHash := emptyUncleHash, coinbase := zeroAddress,
    root := zeroHash, txHash := zeroHash, receiptHash := zeroHash,
    bloom := List.replicate 256 0, difficulty := 1, number := 10,
    gasLimit := 0, gasUsed := 0, time := 20,
    extra := List.replicate 32 0 ++ (addrA ++ addrB ++ addrC) ++ mkSeal addrA,
    mixDigest := zeroHash, nonce := nonceDropVote,
    validators := [], validator := [], penalties := [] }

/-- A stale snapshot that disagrees with the checkpoint's signer list. -/
def snapZbad : SnapshotV1 :=
  { number := 9, hash := [], signers := [addrA], recents := [] }

/-- Environment for the contract-fallback witness: the snapshot knows
only `addrA` while the contract hook returns the full list. -/
def envZ : Env :=
  { envW with
    getHeader := fun _ n =>
      if n = 9 then some h9 else if n = 8 then some h8 else none,
    snapshotAt := fun _ _ => .ok snapZbad,
    hookGetSignersFromContract := fun _ => .ok mwList }

set_option maxRecDepth 1000000 in
theorem C8_contract_fallback_witness :
    verifyCascadingFields envZ cfgZ hdrZ false = verifySeal envZ cfgZ hdrZ false :=
  (C8_contract_fallback envZ cfgZ hdrZ false h9 snapZbad mwList
    .invalidCheckpointSigners (by decide) (by decide) (by decide) (by decide)
    (by decide) (by decide) rfl (by decide) (by decide)).2.1 (by decide)

/-- C9: once Seal's authorization gates pass, a signalled cancellation
channel makes Seal return no block and no error — both on the
recent-signer wait path and at the pre-signing stop check. -/
theorem C9_seal_cancellation (env : Env) (cfg : Config) (blk : Block)
    (snap : SnapshotV1)
    (hn : blk.header.number ≠ 0)
    (hwait : ¬(cfg.period = 0 ∧ blk.txCount = 0 ∧
      blk.header.number % cfg.epoch ≠ 0))
    (hsnap : env.snapshotAt (blk.header.number - 1) blk.header.parentHash =
      .ok snap)
    (hauth : (snap.signers.contains env.signer ||
      (GetMasternodes env cfg blk.header).contains env.signer) = true) :
    Seal env cfg blk true = some (.ok none) := by
  unfold Seal
  rw [if_neg hn, if_neg hwait, hsnap]
  dsimp only
  have hauth2 : ¬(snap.signers.contains env.signer = false ∧
      (GetMasternodes env cfg blk.header).contains env.signer = false) := by
    rintro ⟨h1, h2⟩
    rcases Bool.or_eq_true_iff.mp hauth with h | h
    · rw [h1] at h; cases h
    · rw [h2] at h; cases h
  rw [if_neg hauth2]
  by_cases hrec : (GetMasternodes env cfg blk.header).length > 1 ∧
      snap.recents.any (fun p => p.2 == env.signer &&
        (decide (blk.header.number < 2) ||
          decide (p.1 > sub64 blk.header.number 2)) &&
        decide (blk.header.number % cfg.epoch ≠ 0)) = true
  · rw [if_pos hrec]
    rfl
  · rw [if_neg hrec]
    rfl

/-- Block on top of the witness chain, sealed by the authorized local
signer `addrB`. -/
def blkW : Block := { header := hdr1, txCount := 1 }

theorem C9_seal_cancellation_witness : Seal envW cfgW blkW true = some (.ok none) :=
  C9_seal_cancellation envW cfgW blkW snapW (by decide) (by decide) rfl (by decide)

theorem neg_one_tmod {L : Int} (h : 1 < L) : (-1 : Int).tmod L = -1 := by
  have hz : ((-1 : Int)).tdiv L = 0 := by
    rw [show ((-1 : Int)) = -(1 : Int) by norm_num, Int.neg_tdiv,
      Int.tdiv_eq_zero_of_lt (by norm_num) h]
    norm_num
  rw [Int.tmod_def, hz]
  ring

/-- C10: for a parent with recoverable creator and non-empty masternode
list (non-testnet), CheckMNTurn holds iff
`pre_index % |M| == cur_index` under Go's truncated `%` — one rotation
slot earlier than YourTurn's `(pre_index + 1) mod |M|` rule — so for
`|M| > 1` the two turn predicates never accept the same signer for the
same parent. -/
theorem C10_checkMNTurn_shifted (env : Env) (cfg : Config) (parent : Header)
    (signer : Address) (M : List Address) (snap : SnapshotV1) (pre : Address)
    (htn : cfg.isTestnet = false)
    (hM : M = GetMasternodes env cfg parent) (hMne : M ≠ [])
    (hsnap : env.snapshotAt parent.number (env.headerHash parent) = .ok snap)
    (hn0 : parent.number ≠ 0)
    (hrec : ecrecover env parent = .ok pre) :
    (CheckMNTurn env cfg parent signer = true ↔
      (position M pre).tmod M.length = position M signer)
    ∧ (1 < M.length →
        ¬(CheckMNTurn env cfg parent signer = true ∧
          (YourTurn env cfg parent signer).ok = true)) := by
  have hpio : preIndexOf env M parent = .ok (position M pre) :=
    preIndexOf_ok env M parent pre (position M pre) (fun _ => hrec)
      (by rw [if_neg hn0])
  have hlen : M.length ≠ 0 := fun h => hMne (List.length_eq_zero.mp h)
  have hcmt : CheckMNTurn env cfg parent signer =
      ((position M pre).tmod M.length == position M signer) := by
    unfold CheckMNTurn
    rw [htn]
    dsimp only
    rw [← hM, hsnap]
    dsimp only
    rw [if_neg (show ¬(false = true) by decide)]
    rw [if_neg hlen, hpio]
  have hyt := yourTurn_char env cfg parent M snap (position M pre) hM hMne hsnap hpio
  constructor
  · rw [hcmt]
    exact beq_iff_eq
  · intro hL ⟨h1, h2⟩
    rw [hcmt] at h1
    rw [hyt signer] at h2
    simp only [beq_iff_eq] at h1 h2
    set p : Int := position M pre with hp
    set c : Int := position M signer with hc
    have hLi : (1 : Int) < (M.length : Int) := by exact_mod_cast hL
    have hpge : -1 ≤ p := position_ge_neg_one M pre
    have hplt : p < (M.length : Int) := position_lt_length M pre
    rcases (by omega : p = -1 ∨ 0 ≤ p) with hcase | hcase
    · rw [hcase] at h1 h2
      rw [neg_one_tmod hLi] at h1
      norm_num at h2
      omega
    · rw [Int.tmod_eq_of_lt hcase hplt] at h1
      rcases (by omega : p + 1 < (M.length : Int) ∨ p + 1 = (M.length : Int))
        with hcase2 | hcase2
      · rw [Int.tmod_eq_of_lt (by omega) hcase2] at h2
        omega
      · rw [hcase2, Int.tmod_self] at h2
        omega

set_option maxRecDepth 1000000 in
theorem C10_checkMNTurn_shifted_witness :
    (CheckMNTurn envW cfgW hdr1 addrA = true ↔
      (position mwList addrA).tmod mwList.length = position mwList addrA)
    ∧ (1 < mwList.length →
        ¬(CheckMNTurn envW cfgW hdr1 addrA = true ∧
          (YourTurn envW cfgW hdr1 addrA).ok = true)) :=
  C10_checkMNTurn_shifted envW cfgW hdr1 addrA mwList snapW addrA (by decide)
    (by decide) (by decide) rfl (by decide) (by decide)
